import Mathlib

/-!
Shallow embedding of `backend/data_processor.py` (class `DataProcessor`).

Modelling conventions:
* Python floats are modelled as `ℚ`; Python `round(x, 3)` is round-half-to-even
  at three decimals (`round3`), matching CPython's rounding mode on exact values.
* Python dictionary values that the processor touches are modelled by `Val`
  (`int`, `float`, `str`, `None`); `float(v)` becomes `pyFloat`, and the `<`
  comparison used by `list.sort` becomes the fallible `pyLt` (mixed
  non-numeric comparisons raise `TypeError`, exactly as in CPython).
* `scipy.interpolate.interp1d(..., kind='cubic', fill_value='extrapolate')`
  raises `ValueError` unless there are at least four data points with strictly
  increasing x values; when it succeeds, the fitted spline's values are kept
  abstract (a `Spline` oracle), because every property below is independent of
  the interpolant's exact values (the code clips the results into `[0, 1]`).
* The clock collaborator (`datetime.now()` and its derived values) is passed
  explicitly as a `Clock`, following the spec's determinism convention.
-/

/-- Python runtime values reachable in the processor's dictionaries. -/
inductive Val where
  | vInt (n : Int)
  | vRat (q : ℚ)
  | vStr (s : String)
  | vNone
  deriving DecidableEq, Repr

/-- Exception classes actually raised along the modelled paths. -/
inductive PyErr where
  | typeError
  | valueError
  deriving DecidableEq, Repr

/-- All characters are decimal digits. -/
def allDigits (l : List Char) : Bool := l.all (fun ch => ch.isDigit)

/-- Numeric value of a digit string (most significant first). -/
def digitsToNat (l : List Char) : ℕ :=
  l.foldl (fun acc ch => 10 * acc + (ch.toNat - 48)) 0

/-- Python `float(s)` on a plain decimal literal with optional sign and one
optional decimal point. Exotic accepted forms (scientific notation, `inf`,
`nan`, underscores, surrounding whitespace) are conservatively rejected. -/
def parseFloatLit (s : String) : Option ℚ :=
  let signed : ℚ × List Char :=
    match s.data with
    | '-' :: rest => (-1, rest)
    | '+' :: rest => (1, rest)
    | l => (1, l)
  match (String.mk signed.2).splitOn "." with
  | [ip] =>
      if ip.length > 0 && allDigits ip.data then
        some (signed.1 * digitsToNat ip.data)
      else none
  | [ip, fp] =>
      if (ip.length > 0 || fp.length > 0) && allDigits ip.data && allDigits fp.data then
        some (signed.1 * (digitsToNat ip.data + digitsToNat fp.data / 10 ^ fp.length))
      else none
  | _ => none

/-- Python `float(v)`: numbers convert, strings are parsed (raising
`ValueError` on failure), `None` raises `TypeError`. -/
def pyFloat : Val → Except PyErr ℚ
  | Val.vInt n => Except.ok (n : ℚ)
  | Val.vRat q => Except.ok q
  | Val.vStr s =>
      match parseFloatLit s with
      | some q => Except.ok q
      | none => Except.error PyErr.valueError
  | Val.vNone => Except.error PyErr.typeError

/-- Python `a < b` on `Val`: numeric cross-comparison and string comparison
succeed; any other mixed comparison raises `TypeError`. -/
def pyLt : Val → Val → Except PyErr Bool
  | Val.vInt a, Val.vInt b => Except.ok (decide (a < b))
  | Val.vInt a, Val.vRat b => Except.ok (decide ((a : ℚ) < b))
  | Val.vRat a, Val.vInt b => Except.ok (decide (a < (b : ℚ)))
  | Val.vRat a, Val.vRat b => Except.ok (decide (a < b))
  | Val.vStr a, Val.vStr b => Except.ok (decide (a < b))
  | _, _ => Except.error PyErr.typeError

/-- Round-half-to-even to the nearest integer (CPython's rounding mode). -/
def rhe (q : ℚ) : ℤ :=
  if 2 * (q - ⌊q⌋) < 1 then ⌊q⌋
  else if 1 < 2 * (q - ⌊q⌋) then ⌊q⌋ + 1
  else if Even ⌊q⌋ then ⌊q⌋ else ⌊q⌋ + 1

/-- Python `round(q, 3)`. -/
def round3 (q : ℚ) : ℚ := (rhe (q * 1000) : ℚ) / 1000

/-- `self.min_temp` from `DataProcessor.__init__`. -/
def min_temp : ℚ := 25

/-- `self.max_temp` from `DataProcessor.__init__`. -/
def max_temp : ℚ := 99 / 2

/-- `self.time_labels` from `DataProcessor.__init__`. -/
def time_labels : List String :=
  ["02am", "04am", "06am", "08am", "10am",
   "12pm", "02pm", "04pm", "06pm", "08pm", "10pm"]

/-- `DataProcessor.temperature_to_percentage`. -/
def temperature_to_percentage (t : ℚ) : ℚ :=
  if t ≤ min_temp then 0
  else if t ≥ max_temp then 1
  else round3 ((t - min_temp) / (max_temp - min_temp))

/-- One raw input record, restricted to the keys `DataProcessor` reads; the
whole record is also carried along unchanged as `original_data`. -/
structure RawRecord where
  temperature : Option Val
  value : Option Val
  field : Option Val
  timestamp : Option Val
  time : Option Val
  deriving DecidableEq, Repr

/-- One element of `processed_data` as built in `process_raw_data`. -/
structure ProcessedPoint where
  timestamp : Val
  time : Val
  temperature : ℚ
  fault_probability : ℚ
  original_data : RawRecord
  deriving DecidableEq, Repr

/-- Temperature extraction from `process_raw_data`: try the `temperature` key,
then the `value` key. The source's `field == 'temperature'` test selects
between two branches that both call `float(data_point['value'])`, so both
arms convert `value`. -/
def extractTemp (r : RawRecord) : Except PyErr (Option ℚ) :=
  match r.temperature with
  | some v => (pyFloat v).map some
  | none =>
      match r.value with
      | some v =>
          if r.field = some (Val.vStr "temperature") then (pyFloat v).map some
          else (pyFloat v).map some
      | none => Except.ok none

/-- The per-record body of `process_raw_data`'s loop: a conversion failure is
caught (`ValueError`/`KeyError`/`TypeError`) and the record skipped; a record
with no usable temperature is skipped silently. -/
def processRecord (r : RawRecord) : Option ProcessedPoint :=
  match extractTemp r with
  | Except.error _ => none
  | Except.ok none => none
  | Except.ok (some t) =>
      some { timestamp := r.timestamp.getD (Val.vInt 0)
             time := r.time.getD (Val.vStr "")
             temperature := t
             fault_probability := temperature_to_percentage t
             original_data := r }

/-- Insert one element into an already collected list, comparing `timestamp`
keys with Python `<`; a new element goes after every earlier element whose key
is not greater, which is exactly the stable placement `list.sort` produces. -/
def insertSorted (p : ProcessedPoint) : List ProcessedPoint → Except PyErr (List ProcessedPoint)
  | [] => Except.ok [p]
  | q :: qs =>
      match pyLt p.timestamp q.timestamp with
      | Except.error e => Except.error e
      | Except.ok true => Except.ok (p :: q :: qs)
      | Except.ok false =>
          match insertSorted p qs with
          | Except.error e => Except.error e
          | Except.ok l => Except.ok (q :: l)

/-- `processed_data.sort(key=lambda x: x['timestamp'])`: a stable sort whose
key comparisons can raise `TypeError`; the raise happens outside any `try` in
the source. -/
def sortByTimestamp (l : List ProcessedPoint) : Except PyErr (List ProcessedPoint) :=
  l.foldlM (fun acc p => insertSorted p acc) []

/-- `DataProcessor.process_raw_data`. -/
def process_raw_data (raw : List RawRecord) : Except PyErr (List ProcessedPoint) :=
  sortByTimestamp (raw.filterMap processRecord)

/-- The clock collaborator's outputs used by the processor, fixed for one
invocation: `int(datetime.now().timestamp())`, today's midnight as an epoch,
`datetime.now().isoformat()`, and the `get_recent_dates()` list. -/
structure Clock where
  now : Int
  midnight : Int
  nowIso : String
  recentDates : List String

/-- One `timeSeries` entry of the output contract. -/
structure SeriesPoint where
  time : String
  probability : ℚ
  timestamp : Int
  deriving DecidableEq, Repr

/-- The `latestData` object of the output contract. Its `timestamp` key is
filled from a Python value (the sanitized point's `time` field). -/
structure LatestData where
  temperature : ℚ
  faultProbability : ℚ
  timestamp : Val
  deriving DecidableEq, Repr

/-- The full report object of the output contract. -/
structure Report where
  timeSeries : List SeriesPoint
  latestData : LatestData
  availableWaterJets : List String
  availableDates : List String
  deriving DecidableEq, Repr

/-- The hour list of `generate_target_timestamps`. -/
def targetHours : List Int := [2, 4, 6, 8, 10, 12, 14, 16, 18, 20, 22]

/-- `DataProcessor.generate_target_timestamps`, relative to today's midnight:
`today.replace(hour=h)` is midnight plus `h` hours. -/
def generate_target_timestamps (midnight : Int) : List Int :=
  targetHours.map (fun h => midnight + h * 3600)

/-- `DataProcessor.get_empty_time_series`: the fallback report. -/
def get_empty_time_series (c : Clock) : Report :=
  { timeSeries := time_labels.map (fun lbl => { time := lbl, probability := 0, timestamp := c.now })
    latestData := { temperature := 25, faultProbability := 0, timestamp := Val.vStr c.nowIso }
    availableWaterJets := ["WaterJet_01"]
    availableDates := c.recentDates }

/-- Oracle for the values of the cubic spline scipy fits through the data:
given the (converted) x list and y list, an evaluation function on ℚ. -/
def Spline : Type := List ℚ → List ℚ → ℚ → ℚ

/-- `interp1d(timestamps, probabilities, kind='cubic', bounds_error=False,
fill_value='extrapolate')`: raises `ValueError` unless there are at least
four points with strictly increasing x values; otherwise returns a total
evaluation function (extrapolation included). -/
def interp1d_cubic (spline : Spline) (xs : List ℚ) (ys : List ℚ) : Except PyErr (ℚ → ℚ) :=
  if xs.length < 4 then Except.error PyErr.valueError
  else if List.Chain' (fun a b => a < b) xs then Except.ok (spline xs ys)
  else Except.error PyErr.valueError

/-- `np.clip(q, 0, 1)`. -/
def clip01 (q : ℚ) : ℚ := min (max q 0) 1

/-- The `interpolated_probabilities` array of `generate_time_series_data`:
with two or more points, convert the timestamps to floats, fit the cubic
interpolant and evaluate it at the 11 targets, clipping into `[0, 1]`;
otherwise replicate the single probability (`0.5` if none). Any exception is
propagated to the enclosing `except` clause. -/
def interpolatedResult (spline : Spline) (c : Clock) (processed : List ProcessedPoint) :
    Except PyErr (List ℚ) :=
  if 2 ≤ processed.length then
    match processed.mapM (fun p => pyFloat p.timestamp) with
    | Except.error e => Except.error e
    | Except.ok timestamps =>
        match interp1d_cubic spline timestamps (processed.map (fun p => p.fault_probability)) with
        | Except.error e => Except.error e
        | Except.ok f =>
            Except.ok ((generate_target_timestamps c.midnight).map
              (fun t : ℤ => clip01 (f ((t : ℤ) : ℚ))))
  else
    Except.ok (List.replicate (generate_target_timestamps c.midnight).length
      ((processed.map (fun p => p.fault_probability)).headD (1 / 2)))

/-- The successful tail of `generate_time_series_data`: build the 11 series
entries (label, probability rounded to 3 decimals, target timestamp), take
`latestData` from the last processed point, and attach the static metadata. -/
def buildReport (c : Clock) (processed : List ProcessedPoint) (interpolated : List ℚ) : Report :=
  { timeSeries :=
      List.zipWith (fun lp ts => { time := lp.1, probability := round3 lp.2, timestamp := ts })
        (time_labels.zip interpolated) (generate_target_timestamps c.midnight)
    latestData :=
      match processed.getLast? with
      | some p => { temperature := p.temperature, faultProbability := p.fault_probability,
                    timestamp := p.time }
      | none => { temperature := 25, faultProbability := 0, timestamp := Val.vStr c.nowIso }
    availableWaterJets := ["WaterJet_01", "WaterJet_02", "WaterJet_03"]
    availableDates := c.recentDates }

/-- The body of `generate_time_series_data`'s `try` block. -/
def tryGenerate (spline : Spline) (c : Clock) (processed : List ProcessedPoint) :
    Except PyErr Report :=
  match interpolatedResult spline c processed with
  | Except.error e => Except.error e
  | Except.ok interpolated => Except.ok (buildReport c processed interpolated)

/-- `DataProcessor.generate_time_series_data`: empty input short-circuits to
the fallback report; any exception inside the `try` block is caught and also
yields the fallback report. -/
def generate_time_series_data (spline : Spline) (c : Clock)
    (processed : List ProcessedPoint) : Report :=
  if processed.isEmpty then get_empty_time_series c
  else
    match tryGenerate spline c processed with
    | Except.ok r => r
    | Except.error _ => get_empty_time_series c

/-- `DataProcessor.process_and_export_json`, up to JSON serialization (which
is total on this value model): the sort inside `process_raw_data` runs before
`generate_time_series_data`'s `try`, so its exceptions propagate. -/
def process_and_export (spline : Spline) (c : Clock) (raw : List RawRecord) :
    Except PyErr Report :=
  match process_raw_data raw with
  | Except.error e => Except.error e
  | Except.ok processed => Except.ok (generate_time_series_data spline c processed)

theorem rhe_intCast (n : ℤ) : rhe (n : ℚ) = n := by
  unfold rhe
  rw [Int.floor_intCast]
  norm_num

theorem floor_le_rhe (q : ℚ) : ⌊q⌋ ≤ rhe q := by
  unfold rhe
  split_ifs <;> omega

theorem rhe_le_floor_add_one (q : ℚ) : rhe q ≤ ⌊q⌋ + 1 := by
  unfold rhe
  split_ifs <;> omega

theorem rhe_mono {q r : ℚ} (h : q ≤ r) : rhe q ≤ rhe r := by
  rcases lt_or_le ⌊q⌋ ⌊r⌋ with hf | hf
  · calc rhe q ≤ ⌊q⌋ + 1 := rhe_le_floor_add_one q
      _ ≤ ⌊r⌋ := by omega
      _ ≤ rhe r := floor_le_rhe r
  · have hf' : ⌊r⌋ = ⌊q⌋ := le_antisymm hf (Int.floor_mono h)
    unfold rhe
    rw [hf']
    have hc : (⌊q⌋ : ℚ) = (⌊q⌋ : ℚ) := rfl
    split_ifs <;> first | omega | (exfalso; linarith)

theorem round3_mono {q r : ℚ} (h : q ≤ r) : round3 q ≤ round3 r := by
  unfold round3
  have h1 : rhe (q * 1000) ≤ rhe (r * 1000) := rhe_mono (by linarith)
  have h2 : ((rhe (q * 1000) : ℤ) : ℚ) ≤ ((rhe (r * 1000) : ℤ) : ℚ) := by exact_mod_cast h1
  linarith

theorem round3_zero : round3 0 = 0 := by
  norm_num [round3, rhe]

theorem round3_one : round3 1 = 1 := by
  norm_num [round3, rhe]

theorem round3_idem (q : ℚ) : round3 (round3 q) = round3 q := by
  unfold round3
  have h : ((rhe (q * 1000) : ℤ) : ℚ) / 1000 * 1000 = ((rhe (q * 1000) : ℤ) : ℚ) := by
    field_simp
  rw [h, rhe_intCast]

theorem round3_nonneg {q : ℚ} (h : 0 ≤ q) : 0 ≤ round3 q := by
  calc (0 : ℚ) = round3 0 := round3_zero.symm
    _ ≤ round3 q := round3_mono h

theorem round3_le_one {q : ℚ} (h : q ≤ 1) : round3 q ≤ 1 := by
  calc round3 q ≤ round3 1 := round3_mono h
    _ = 1 := round3_one

theorem temperature_to_percentage_nonneg (t : ℚ) : 0 ≤ temperature_to_percentage t := by
  unfold temperature_to_percentage min_temp max_temp
  split_ifs with h1 h2
  · exact le_refl 0
  · norm_num
  · exact round3_nonneg (div_nonneg (by linarith) (by norm_num))

theorem temperature_to_percentage_le_one (t : ℚ) : temperature_to_percentage t ≤ 1 := by
  unfold temperature_to_percentage min_temp max_temp
  split_ifs with h1 h2
  · norm_num
  · exact le_refl 1
  · exact round3_le_one ((div_le_one (by norm_num)).mpr (by linarith))

theorem temperature_to_percentage_round3 (t : ℚ) :
    round3 (temperature_to_percentage t) = temperature_to_percentage t := by
  unfold temperature_to_percentage
  split_ifs
  · exact round3_zero
  · exact round3_one
  · exact round3_idem _

/-- Integer view of a point's timestamp key (meaningful under `IntTs`). -/
def tsZ (p : ProcessedPoint) : ℤ :=
  match p.timestamp with
  | Val.vInt n => n
  | _ => 0

/-- The point's timestamp key is a Python `int`. -/
def IntTs (p : ProcessedPoint) : Prop := p.timestamp = Val.vInt (tsZ p)

/-- Pure counterpart of `insertSorted` on integer keys. -/
def insertP (p : ProcessedPoint) : List ProcessedPoint → List ProcessedPoint
  | [] => [p]
  | q :: qs => if tsZ p < tsZ q then p :: q :: qs else q :: insertP p qs

/-- Pure counterpart of `sortByTimestamp` on integer keys. -/
def sortP (l : List ProcessedPoint) : List ProcessedPoint :=
  l.foldl (fun acc p => insertP p acc) []

theorem insertSorted_eq_insertP (p : ProcessedPoint) (acc : List ProcessedPoint)
    (hp : IntTs p) (hacc : ∀ q ∈ acc, IntTs q) :
    insertSorted p acc = Except.ok (insertP p acc) := by
  induction acc with
  | nil => rfl
  | cons q qs ih =>
      have hq : IntTs q := hacc q (List.mem_cons_self q qs)
      have ih' := ih (fun r hr => hacc r (List.mem_cons_of_mem q hr))
      unfold IntTs at hp hq
      by_cases h : tsZ p < tsZ q
      · simp [insertSorted, insertP, hp, hq, pyLt, h]
      · simp [insertSorted, insertP, hp, hq, pyLt, h, ih']

theorem mem_insertP {r p : ProcessedPoint} {l : List ProcessedPoint} :
    r ∈ insertP p l ↔ r = p ∨ r ∈ l := by
  induction l with
  | nil => simp [insertP]
  | cons q qs ih =>
      unfold insertP
      by_cases h : tsZ p < tsZ q
      · simp [h]
      · simp only [h, if_false, List.mem_cons, ih]
        tauto

theorem insertP_sorted {p : ProcessedPoint} {l : List ProcessedPoint}
    (hl : l.Pairwise (fun a b => tsZ a ≤ tsZ b)) :
    (insertP p l).Pairwise (fun a b => tsZ a ≤ tsZ b) := by
  induction l with
  | nil => simp [insertP]
  | cons q qs ih =>
      rcases List.pairwise_cons.mp hl with ⟨hq, hqs⟩
      unfold insertP
      by_cases h : tsZ p < tsZ q
      · simp only [h, if_true]
        refine List.pairwise_cons.mpr ⟨?_, hl⟩
        intro r hr
        rcases List.mem_cons.mp hr with rfl | hr
        · exact le_of_lt h
        · exact le_trans (le_of_lt h) (hq r hr)
      · simp only [h, if_false]
        refine List.pairwise_cons.mpr ⟨?_, ih hqs⟩
        intro r hr
        rcases mem_insertP.mp hr with rfl | hr
        · omega
        · exact hq r hr

theorem filter_eq_nil_of_lt {k : ℤ} {l : List ProcessedPoint}
    (h : ∀ r ∈ l, k < tsZ r) :
    l.filter (fun r => tsZ r == k) = [] := by
  refine List.filter_eq_nil_iff.mpr ?_
  intro r hr
  have := h r hr
  simp only [beq_iff_eq]
  omega

theorem insertP_filter {p : ProcessedPoint} {l : List ProcessedPoint} (k : ℤ)
    (hl : l.Pairwise (fun a b => tsZ a ≤ tsZ b)) :
    (insertP p l).filter (fun r => tsZ r == k) =
      l.filter (fun r => tsZ r == k) ++ (if tsZ p = k then [p] else []) := by
  induction l with
  | nil =>
      unfold insertP
      by_cases h : tsZ p = k <;> simp [h]
  | cons q qs ih =>
      rcases List.pairwise_cons.mp hl with ⟨hq, hqs⟩
      unfold insertP
      by_cases h : tsZ p < tsZ q
      · simp only [h, if_true]
        by_cases hk : tsZ p = k
        · have hnil : (q :: qs).filter (fun r => tsZ r == k) = [] := by
            refine filter_eq_nil_of_lt ?_
            intro r hr
            rcases List.mem_cons.mp hr with rfl | hr
            · omega
            · have := hq r hr; omega
          rw [List.filter_cons, hnil]
          simp [hk]
        · rw [List.filter_cons]
          simp [hk]
      · simp only [h, if_false]
        rw [List.filter_cons, List.filter_cons, ih hqs]
        by_cases hqk : tsZ q = k
        · simp [hqk]
        · simp [hqk]

theorem foldl_insertP_sorted (l : List ProcessedPoint) :
    ∀ acc, acc.Pairwise (fun a b => tsZ a ≤ tsZ b) →
      (l.foldl (fun acc p => insertP p acc) acc).Pairwise (fun a b => tsZ a ≤ tsZ b) := by
  induction l with
  | nil => intro acc hacc; simpa using hacc
  | cons p l ih =>
      intro acc hacc
      simpa using ih (insertP p acc) (insertP_sorted hacc)

theorem foldl_insertP_filter (l : List ProcessedPoint) (k : ℤ) :
    ∀ acc, acc.Pairwise (fun a b => tsZ a ≤ tsZ b) →
      (l.foldl (fun acc p => insertP p acc) acc).filter (fun r => tsZ r == k) =
        acc.filter (fun r => tsZ r == k) ++ l.filter (fun r => tsZ r == k) := by
  induction l with
  | nil => intro acc hacc; simp
  | cons p l ih =>
      intro acc hacc
      have step := ih (insertP p acc) (insertP_sorted hacc)
      simp only [List.foldl_cons] at step ⊢
      rw [step, insertP_filter k hacc]
      by_cases hk : tsZ p = k
      · have : (tsZ p == k) = true := by simp [hk]
        simp [List.filter, this, hk]
      · have : (tsZ p == k) = false := by simp [hk]
        simp [List.filter, this, hk]

theorem foldl_insertP_mem (l : List ProcessedPoint) :
    ∀ acc (r : ProcessedPoint), r ∈ l.foldl (fun acc p => insertP p acc) acc →
      r ∈ acc ∨ r ∈ l := by
  induction l with
  | nil => intro acc r hr; simp at hr; exact Or.inl hr
  | cons p l ih =>
      intro acc r hr
      simp only [List.foldl_cons] at hr
      rcases ih (insertP p acc) r hr with h | h
      · rcases mem_insertP.mp h with rfl | h
        · exact Or.inr (List.mem_cons_self r l)
        · exact Or.inl h
      · exact Or.inr (List.mem_cons_of_mem p h)

theorem foldlM_insertSorted_eq (l : List ProcessedPoint) :
    ∀ acc, (∀ q ∈ acc, IntTs q) → (∀ p ∈ l, IntTs p) →
      (l.foldlM (fun acc p => insertSorted p acc) acc : Except PyErr _) =
        Except.ok (l.foldl (fun acc p => insertP p acc) acc) := by
  induction l with
  | nil => intro acc _ _; rfl
  | cons p l ih =>
      intro acc hacc hl
      have hp : IntTs p := hl p (List.mem_cons_self p l)
      have hacc' : ∀ q ∈ insertP p acc, IntTs q := by
        intro q hq
        rcases mem_insertP.mp hq with rfl | hq
        · exact hp
        · exact hacc q hq
      simp only [List.foldlM_cons, insertSorted_eq_insertP p acc hp hacc]
      simpa using ih (insertP p acc) hacc' (fun r hr => hl r (List.mem_cons_of_mem p hr))

theorem sortByTimestamp_eq_sortP {l : List ProcessedPoint} (hl : ∀ p ∈ l, IntTs p) :
    sortByTimestamp l = Except.ok (sortP l) :=
  foldlM_insertSorted_eq l [] (by intro q hq; cases hq) hl

theorem sortP_sorted (l : List ProcessedPoint) :
    (sortP l).Pairwise (fun a b => tsZ a ≤ tsZ b) :=
  foldl_insertP_sorted l [] (List.Pairwise.nil)

theorem sortP_filter (l : List ProcessedPoint) (k : ℤ) :
    (sortP l).filter (fun r => tsZ r == k) = l.filter (fun r => tsZ r == k) := by
  have := foldl_insertP_filter l k [] (List.Pairwise.nil)
  simpa [sortP] using this

theorem sortP_mem {l : List ProcessedPoint} {r : ProcessedPoint} (hr : r ∈ sortP l) :
    r ∈ l := by
  rcases foldl_insertP_mem l [] r hr with h | h
  · cases h
  · exact h

theorem processRecord_spec {r : RawRecord} {p : ProcessedPoint}
    (h : processRecord r = some p) :
    p.fault_probability = temperature_to_percentage p.temperature ∧
    p.time = r.time.getD (Val.vStr "") ∧
    p.timestamp = r.timestamp.getD (Val.vInt 0) ∧
    p.original_data = r := by
  unfold processRecord at h
  cases hE : extractTemp r with
  | error e => rw [hE] at h; cases h
  | ok o =>
      cases o with
      | none => rw [hE] at h; cases h
      | some t =>
          rw [hE] at h
          cases h
          exact ⟨rfl, rfl, rfl, rfl⟩

theorem insertSorted_ok_mem {p : ProcessedPoint} {acc l' : List ProcessedPoint}
    (h : insertSorted p acc = Except.ok l') :
    ∀ r ∈ l', r = p ∨ r ∈ acc := by
  induction acc generalizing l' with
  | nil =>
      cases h
      intro r hr
      simp at hr
      exact Or.inl hr
  | cons q qs ih =>
      unfold insertSorted at h
      cases hc : pyLt p.timestamp q.timestamp with
      | error e => rw [hc] at h; cases h
      | ok b =>
          rw [hc] at h
          cases b with
          | true =>
              cases h
              intro r hr
              rcases List.mem_cons.mp hr with rfl | hr
              · exact Or.inl rfl
              · exact Or.inr hr
          | false =>
              cases hrec : insertSorted p qs with
              | error e => rw [hrec] at h; cases h
              | ok l2 =>
                  rw [hrec] at h
                  cases h
                  intro r hr
                  rcases List.mem_cons.mp hr with rfl | hr
                  · exact Or.inr (List.mem_cons_self r qs)
                  · rcases ih hrec r hr with rfl | hm
                    · exact Or.inl rfl
                    · exact Or.inr (List.mem_cons_of_mem q hm)

theorem foldlM_insertSorted_ok_mem (l : List ProcessedPoint) :
    ∀ acc out, (l.foldlM (fun acc p => insertSorted p acc) acc : Except PyErr _) =
        Except.ok out →
      ∀ r ∈ out, r ∈ acc ∨ r ∈ l := by
  induction l with
  | nil =>
      intro acc out h r hr
      cases h
      exact Or.inl hr
  | cons p l ih =>
      intro acc out h r hr
      rw [List.foldlM_cons] at h
      cases hi : insertSorted p acc with
      | error e => rw [hi] at h; simp [Bind.bind, Except.bind] at h
      | ok acc' =>
          rw [hi] at h
          simp only [Bind.bind, Except.bind] at h
          rcases ih acc' out h r hr with hm | hm
          · rcases insertSorted_ok_mem hi r hm with rfl | hm'
            · exact Or.inr (List.mem_cons_self r l)
            · exact Or.inl hm'
          · exact Or.inr (List.mem_cons_of_mem p hm)

theorem sortByTimestamp_ok_mem {l out : List ProcessedPoint}
    (h : sortByTimestamp l = Except.ok out) : ∀ r ∈ out, r ∈ l := by
  intro r hr
  rcases foldlM_insertSorted_ok_mem l [] out h r hr with hm | hm
  · cases hm
  · exact hm

theorem process_raw_data_ok_mem {raw : List RawRecord} {l : List ProcessedPoint}
    (h : process_raw_data raw = Except.ok l) :
    ∀ p ∈ l, ∃ r ∈ raw, processRecord r = some p := by
  intro p hp
  have hmem : p ∈ raw.filterMap processRecord := sortByTimestamp_ok_mem h p hp
  exact List.mem_filterMap.mp hmem

theorem process_raw_data_point_spec {raw : List RawRecord} {l : List ProcessedPoint}
    (h : process_raw_data raw = Except.ok l) {p : ProcessedPoint} (hp : p ∈ l) :
    p.fault_probability = temperature_to_percentage p.temperature ∧
    p.time = p.original_data.time.getD (Val.vStr "") ∧
    p.timestamp = p.original_data.timestamp.getD (Val.vInt 0) := by
  obtain ⟨r, _, hpr⟩ := process_raw_data_ok_mem h p hp
  obtain ⟨h1, h2, h3, h4⟩ := processRecord_spec hpr
  subst h4
  exact ⟨h1, h2, h3⟩

/-- The raw record's `timestamp` field, when present, is a Python `int` (the
data model's "integer epoch seconds"). -/
def RawTsOk (r : RawRecord) : Prop :=
  r.timestamp = none ∨ ∃ n : ℤ, r.timestamp = some (Val.vInt n)

theorem processRecord_IntTs {r : RawRecord} {p : ProcessedPoint}
    (hok : RawTsOk r) (h : processRecord r = some p) : IntTs p := by
  obtain ⟨_, _, h3, _⟩ := processRecord_spec h
  rcases hok with hn | ⟨n, hn⟩ <;>
    · rw [hn] at h3
      unfold IntTs tsZ
      rw [h3]
      rfl

theorem process_raw_data_eq_sortP {raw : List RawRecord}
    (hraw : ∀ r ∈ raw, RawTsOk r) :
    process_raw_data raw = Except.ok (sortP (raw.filterMap processRecord)) := by
  unfold process_raw_data
  refine sortByTimestamp_eq_sortP ?_
  intro p hp
  obtain ⟨r, hr, hpr⟩ := List.mem_filterMap.mp hp
  exact processRecord_IntTs (hraw r hr) hpr

theorem clip01_nonneg (q : ℚ) : 0 ≤ clip01 q := by
  unfold clip01
  rcases le_total (max q 0) 1 with h | h
  · rw [min_eq_left h]; exact le_max_right q 0
  · rw [min_eq_right h]; norm_num

theorem clip01_le_one (q : ℚ) : clip01 q ≤ 1 := min_le_right _ 1

theorem generate_target_timestamps_length (m : ℤ) :
    (generate_target_timestamps m).length = 11 := rfl

theorem interpolatedResult_ok_length {spline : Spline} {c : Clock}
    {processed : List ProcessedPoint} {li : List ℚ}
    (h : interpolatedResult spline c processed = Except.ok li) : li.length = 11 := by
  unfold interpolatedResult at h
  split at h
  · split at h
    · exact Except.noConfusion h
    · split at h
      · exact Except.noConfusion h
      · cases h
        simp [generate_target_timestamps, targetHours]
  · cases h
    simp [generate_target_timestamps, targetHours]

theorem interpolatedResult_ok_bounds {spline : Spline} {c : Clock}
    {processed : List ProcessedPoint} {li : List ℚ}
    (hb : ∀ p ∈ processed, 0 ≤ p.fault_probability ∧ p.fault_probability ≤ 1)
    (h : interpolatedResult spline c processed = Except.ok li) :
    ∀ x ∈ li, 0 ≤ x ∧ x ≤ 1 := by
  unfold interpolatedResult at h
  split at h
  · split at h
    · exact Except.noConfusion h
    · split at h
      · exact Except.noConfusion h
      · cases h
        intro x hx
        obtain ⟨t, _, rfl⟩ := List.mem_map.mp hx
        exact ⟨clip01_nonneg _, clip01_le_one _⟩
  · cases h
    intro x hx
    have hx' := List.eq_of_mem_replicate hx
    subst hx'
    cases processed with
    | nil => norm_num
    | cons p ps =>
        have := hb p (List.mem_cons_self p ps)
        simpa using this

theorem mem_zipWith3 {α β γ : Type} {f : α → β → γ} {l1 : List α} {l2 : List β} {x : γ} :
    x ∈ List.zipWith f l1 l2 → ∃ a ∈ l1, ∃ b ∈ l2, x = f a b := by
  induction l1 generalizing l2 with
  | nil => intro h; simp at h
  | cons a l1 ih =>
      intro h
      cases l2 with
      | nil => simp at h
      | cons b l2 =>
          rcases List.mem_cons.mp h with rfl | h
          · exact ⟨a, List.mem_cons_self a l1, b, List.mem_cons_self b l2, rfl⟩
          · obtain ⟨a', ha, b', hb, rfl⟩ := ih h
            exact ⟨a', List.mem_cons_of_mem a ha, b', List.mem_cons_of_mem b hb, rfl⟩

theorem buildReport_timeSeries_length {c : Clock} {processed : List ProcessedPoint}
    {li : List ℚ} (h : li.length = 11) :
    (buildReport c processed li).timeSeries.length = 11 := by
  unfold buildReport
  simp [List.length_zipWith, List.length_zip, h, generate_target_timestamps, targetHours,
    time_labels]

theorem buildReport_timeSeries_mem {c : Clock} {processed : List ProcessedPoint}
    {li : List ℚ} {sp : SeriesPoint} (h : sp ∈ (buildReport c processed li).timeSeries) :
    ∃ x ∈ li, sp.probability = round3 x := by
  unfold buildReport at h
  obtain ⟨lp, hlp, ts, _, rfl⟩ := mem_zipWith3 h
  exact ⟨lp.2, (List.of_mem_zip hlp).2, rfl⟩

theorem getLast?_mem_self {l : List ProcessedPoint} {a : ProcessedPoint}
    (h : l.getLast? = some a) : a ∈ l := by
  induction l with
  | nil => cases h
  | cons x xs ih =>
      cases xs with
      | nil =>
          cases h
          exact List.mem_cons_self _ _
      | cons y ys =>
          rw [List.getLast?_cons_cons] at h
          exact List.mem_cons_of_mem x (ih h)

theorem mapM_pyFloat_int {l : List ProcessedPoint} (h : ∀ p ∈ l, IntTs p) :
    (l.mapM (fun p => pyFloat p.timestamp) : Except PyErr _) =
      Except.ok (l.map (fun p => ((tsZ p : ℤ) : ℚ))) := by
  induction l with
  | nil => rfl
  | cons p l ih =>
      have hp := h p (List.mem_cons_self p l)
      unfold IntTs at hp
      rw [List.mapM_cons, hp, ih (fun q hq => h q (List.mem_cons_of_mem p hq))]
      rfl

theorem interpolatedResult_of_four {spline : Spline} {c : Clock}
    {processed : List ProcessedPoint}
    (h4 : 4 ≤ processed.length)
    (hts : ∀ p ∈ processed, IntTs p)
    (hinc : List.Chain' (fun a b => a < b) (processed.map (fun p => ((tsZ p : ℤ) : ℚ)))) :
    interpolatedResult spline c processed =
      Except.ok ((generate_target_timestamps c.midnight).map
        (fun t : ℤ => clip01 (spline (processed.map (fun p => ((tsZ p : ℤ) : ℚ)))
          (processed.map (fun p => p.fault_probability)) ((t : ℤ) : ℚ)))) := by
  have hlen : ¬ (processed.map (fun p => ((tsZ p : ℤ) : ℚ))).length < 4 := by
    rw [List.length_map]
    omega
  unfold interpolatedResult
  rw [if_pos (le_trans (by norm_num) h4)]
  simp only [mapM_pyFloat_int hts]
  unfold interp1d_cubic
  rw [if_neg hlen, if_pos hinc]

/-- A trivial spline oracle used for concrete instantiations. -/
def spline0 : Spline := fun _ _ _ => 0

/-- A fixed clock for concrete instantiations. -/
def clock0 : Clock :=
  { now := 1760227200
    midnight := 1760198400
    nowIso := "2025-10-12T08:00:00"
    recentDates := ["2025-10-12", "2025-10-11", "2025-10-10", "2025-10-09",
                    "2025-10-08", "2025-10-07", "2025-10-06"] }

/-- A raw record with no keys at all. -/
def rawEmpty : RawRecord :=
  { temperature := none, value := none, field := none, timestamp := none, time := none }

/-- Sanitized point `(t=0, p=0.0)` (temperature 25 normalizes to 0). -/
def ptA : ProcessedPoint :=
  { timestamp := Val.vInt 0, time := Val.vStr "", temperature := 25,
    fault_probability := 0, original_data := rawEmpty }

/-- Sanitized point `(t=1000, p=1.0)` (temperature 49.5 normalizes to 1). -/
def ptB : ProcessedPoint :=
  { timestamp := Val.vInt 1000, time := Val.vStr "", temperature := 99 / 2,
    fault_probability := 1, original_data := rawEmpty }

/-- Claim C1, counterexample: with exactly the two sanitized points
`(t=0, p=0.0)` and `(t=1000, p=1.0)` (and targets far outside `[0, 1000]`),
the resampler does NOT fit and evaluate a cubic interpolant: `interp1d` with
`kind='cubic'` raises `ValueError` for fewer than four points, the `except`
clause catches it, and the whole fallback empty report is returned instead of
an interpolated series. -/
theorem claim_C1_counterexample :
    tryGenerate spline0 clock0 [ptA, ptB] = Except.error PyErr.valueError ∧
    generate_time_series_data spline0 clock0 [ptA, ptB] = get_empty_time_series clock0 :=
  ⟨rfl, rfl⟩

/-- Claim C1, amended: for sanitized inputs with at least FOUR points with
strictly increasing numeric timestamps, the resampler fits the cubic
interpolant, evaluates it at each of the 11 target timestamps (extrapolating
where targets fall outside the input range), and clamps every evaluated value
into `[0, 1]`; with 2 or 3 points the `interp1d` call raises and the fallback
empty report is produced instead (see the counterexample). -/
theorem claim_C1 (spline : Spline) (c : Clock) (processed : List ProcessedPoint)
    (h4 : 4 ≤ processed.length)
    (hts : ∀ p ∈ processed, IntTs p)
    (hinc : List.Chain' (fun a b => a < b) (processed.map (fun p => ((tsZ p : ℤ) : ℚ)))) :
    tryGenerate spline c processed =
      Except.ok (buildReport c processed
        ((generate_target_timestamps c.midnight).map
          (fun t : ℤ => clip01 (spline (processed.map (fun p => ((tsZ p : ℤ) : ℚ)))
            (processed.map (fun p => p.fault_probability)) ((t : ℤ) : ℚ))))) ∧
    ∀ sp ∈ (buildReport c processed
        ((generate_target_timestamps c.midnight).map
          (fun t : ℤ => clip01 (spline (processed.map (fun p => ((tsZ p : ℤ) : ℚ)))
            (processed.map (fun p => p.fault_probability)) ((t : ℤ) : ℚ))))).timeSeries,
      0 ≤ sp.probability ∧ sp.probability ≤ 1 := by
  constructor
  · unfold tryGenerate
    rw [interpolatedResult_of_four h4 hts hinc]
  · intro sp hsp
    obtain ⟨x, hx, hround⟩ := buildReport_timeSeries_mem hsp
    obtain ⟨t, _, rfl⟩ := List.mem_map.mp hx
    rw [hround]
    exact ⟨round3_nonneg (clip01_nonneg _), round3_le_one (clip01_le_one _)⟩

/-- Four sanitized points with strictly increasing integer timestamps. -/
def pts4 : List ProcessedPoint :=
  [{ timestamp := Val.vInt 0, time := Val.vStr "", temperature := 25,
     fault_probability := 0, original_data := rawEmpty },
   { timestamp := Val.vInt 10, time := Val.vStr "", temperature := 25,
     fault_probability := 0, original_data := rawEmpty },
   { timestamp := Val.vInt 20, time := Val.vStr "", temperature := 25,
     fault_probability := 0, original_data := rawEmpty },
   { timestamp := Val.vInt 30, time := Val.vStr "", temperature := 25,
     fault_probability := 0, original_data := rawEmpty }]

theorem claim_C1_witness :
    tryGenerate spline0 clock0 pts4 =
      Except.ok (buildReport clock0 pts4
        ((generate_target_timestamps clock0.midnight).map
          (fun t : ℤ => clip01 (spline0 (pts4.map (fun p => ((tsZ p : ℤ) : ℚ)))
            (pts4.map (fun p => p.fault_probability)) ((t : ℤ) : ℚ))))) :=
  (claim_C1 spline0 clock0 pts4 (by norm_num [pts4])
    (by
      intro p hp
      simp only [pts4, List.mem_cons, List.not_mem_nil, or_false] at hp
      rcases hp with rfl | rfl | rfl | rfl <;> rfl)
    (by
      norm_num [pts4, tsZ, List.chain'_cons, List.chain'_singleton])).1

/-- The failing batch for claim C2: two records whose `value` converts, one
carrying the string timestamp `"a"`, the other no timestamp at all (so it
defaults to the integer `0`). -/
def badRaw : List RawRecord :=
  [{ temperature := none, value := some (Val.vInt 30), field := none,
     timestamp := some (Val.vStr "a"), time := none },
   { temperature := none, value := some (Val.vInt 30), field := none,
     timestamp := none, time := none }]

/-- Claim C2 is violated by the code: sorting the sanitized records compares
the string timestamp `"a"` with the defaulted integer `0`, raising
`TypeError` from `processed_data.sort` (line 75), which sits outside every
`try` block and therefore propagates across `process_and_export_json`'s
public boundary instead of terminating in the empty-report fallback. -/
theorem claim_C2 :
    process_and_export spline0 clock0 badRaw = Except.error PyErr.typeError := rfl

/-- Claim C3: the normalizer is the saturating piecewise-linear map — `0.0` at
or below `25.0`, `1.0` at or above `49.5`, and `round((t-25.0)/24.5, 3)` on
the open interval; it is total (defined for every `t : ℚ`) with no error
conditions. -/
theorem claim_C3 (t : ℚ) :
    (t ≤ 25 → temperature_to_percentage t = 0) ∧
    (99 / 2 ≤ t → temperature_to_percentage t = 1) ∧
    (25 < t → t < 99 / 2 → temperature_to_percentage t = round3 ((t - 25) / (49 / 2))) := by
  refine ⟨?_, ?_, ?_⟩
  · intro h
    unfold temperature_to_percentage min_temp
    rw [if_pos h]
  · intro h
    unfold temperature_to_percentage min_temp max_temp
    rw [if_neg (by linarith), if_pos h]
  · intro h1 h2
    unfold temperature_to_percentage min_temp max_temp
    rw [if_neg (by linarith), if_neg (by simpa using not_le.mpr h2)]
    have : (99 : ℚ) / 2 - 25 = 49 / 2 := by norm_num
    rw [this]

theorem claim_C3_witness :
    temperature_to_percentage 20 = 0 ∧
    temperature_to_percentage 60 = 1 ∧
    temperature_to_percentage 30 = round3 ((30 - 25) / (49 / 2)) :=
  ⟨(claim_C3 20).1 (by norm_num), (claim_C3 60).2.1 (by norm_num),
   (claim_C3 30).2.2 (by norm_num) (by norm_num)⟩

theorem get_empty_time_series_length (c : Clock) :
    (get_empty_time_series c).timeSeries.length = 11 := rfl

theorem get_empty_time_series_probs (c : Clock) :
    ∀ sp ∈ (get_empty_time_series c).timeSeries, sp.probability = 0 := by
  intro sp hsp
  obtain ⟨lbl, _, rfl⟩ := List.mem_map.mp hsp
  rfl

theorem generate_invariant (spline : Spline) (c : Clock)
    (processed : List ProcessedPoint)
    (hb : ∀ p ∈ processed, 0 ≤ p.fault_probability ∧ p.fault_probability ≤ 1) :
    (generate_time_series_data spline c processed).timeSeries.length = 11 ∧
    ∀ sp ∈ (generate_time_series_data spline c processed).timeSeries,
      0 ≤ sp.probability ∧ sp.probability ≤ 1 ∧ round3 sp.probability = sp.probability := by
  unfold generate_time_series_data
  split
  · refine ⟨get_empty_time_series_length c, ?_⟩
    intro sp hsp
    rw [get_empty_time_series_probs c sp hsp]
    exact ⟨le_refl 0, by norm_num, round3_zero⟩
  · cases htry : tryGenerate spline c processed with
    | error e =>
        refine ⟨get_empty_time_series_length c, ?_⟩
        intro sp hsp
        rw [get_empty_time_series_probs c sp hsp]
        exact ⟨le_refl 0, by norm_num, round3_zero⟩
    | ok rep =>
        unfold tryGenerate at htry
        cases hi : interpolatedResult spline c processed with
        | error e => rw [hi] at htry; exact Except.noConfusion htry
        | ok li =>
            rw [hi] at htry
            cases htry
            constructor
            · exact buildReport_timeSeries_length (interpolatedResult_ok_length hi)
            · intro sp hsp
              obtain ⟨x, hx, hround⟩ := buildReport_timeSeries_mem hsp
              obtain ⟨hx0, hx1⟩ := interpolatedResult_ok_bounds hb hi x hx
              rw [hround]
              exact ⟨round3_nonneg hx0, round3_le_one hx1, round3_idem x⟩

/-- Claim C4: every report produced by the pipeline — for any input point
count and on both the normal and the fallback path — has a `timeSeries` of
length exactly 11 whose probabilities all lie in `[0, 1]` and are all fixed
points of rounding to 3 decimal places. -/
theorem claim_C4 (spline : Spline) (c : Clock) (raw : List RawRecord) (r : Report)
    (h : process_and_export spline c raw = Except.ok r) :
    r.timeSeries.length = 11 ∧
    ∀ sp ∈ r.timeSeries,
      0 ≤ sp.probability ∧ sp.probability ≤ 1 ∧ round3 sp.probability = sp.probability := by
  unfold process_and_export at h
  cases hpr : process_raw_data raw with
  | error e => rw [hpr] at h; exact Except.noConfusion h
  | ok processed =>
      rw [hpr] at h
      cases h
      refine generate_invariant spline c processed ?_
      intro p hp
      have hfp := (process_raw_data_point_spec hpr hp).1
      rw [hfp]
      exact ⟨temperature_to_percentage_nonneg _, temperature_to_percentage_le_one _⟩

/-- A well-formed raw record carrying temperature 26.5 at timestamp 0. -/
def goodRec : RawRecord :=
  { temperature := some (Val.vRat (53 / 2)), value := none, field := none,
    timestamp := some (Val.vInt 0), time := some (Val.vStr "t0") }

/-- A single-record raw batch. -/
def goodRaw : List RawRecord := [goodRec]

/-- The report the pipeline produces on `goodRaw` under `clock0`. -/
def rep1 : Report :=
  generate_time_series_data spline0 clock0 (goodRaw.filterMap processRecord)

theorem claim_C4_witness :
    rep1.timeSeries.length = 11 ∧
    ∀ sp ∈ rep1.timeSeries,
      0 ≤ sp.probability ∧ sp.probability ≤ 1 ∧ round3 sp.probability = sp.probability :=
  claim_C4 spline0 clock0 goodRaw rep1 rfl

/-- Claim C5: for every raw batch whose timestamp fields are integers (or
absent — the data model's "integer epoch seconds"), the sanitizer's output is
sorted ascending by timestamp; the sort is stable — for every key, the
records carrying that key appear in exactly their pre-sort (input) relative
order; and a record without a timestamp field gets the default timestamp
`0`. Quantifying over every `raw` covers every permutation of a batch. -/
theorem claim_C5 (raw : List RawRecord) (l : List ProcessedPoint)
    (hraw : ∀ r ∈ raw, RawTsOk r)
    (h : process_raw_data raw = Except.ok l) :
    l.Pairwise (fun a b => tsZ a ≤ tsZ b) ∧
    (∀ k : ℤ, l.filter (fun p => tsZ p == k) =
      (raw.filterMap processRecord).filter (fun p => tsZ p == k)) ∧
    (∀ p ∈ l, p.original_data.timestamp = none → p.timestamp = Val.vInt 0) := by
  have heq := process_raw_data_eq_sortP hraw
  rw [heq] at h
  cases h
  refine ⟨sortP_sorted _, fun k => sortP_filter _ k, ?_⟩
  intro p hp hnone
  obtain ⟨r, _, hpr⟩ := List.mem_filterMap.mp (sortP_mem hp)
  obtain ⟨_, _, h3, h4⟩ := processRecord_spec hpr
  rw [h4] at hnone
  rw [h3, hnone]
  rfl

/-- Witness batch: timestamps `5`, absent (defaults to `0`), and `5` again —
out of order and with a tie. -/
def rawW : List RawRecord :=
  [{ temperature := some (Val.vRat 30), value := none, field := none,
     timestamp := some (Val.vInt 5), time := none },
   { temperature := some (Val.vRat 40), value := none, field := none,
     timestamp := none, time := none },
   { temperature := some (Val.vRat 27), value := none, field := none,
     timestamp := some (Val.vInt 5), time := some (Val.vStr "x") }]

/-- The sanitizer's output on `rawW`. -/
def lW : List ProcessedPoint := sortP (rawW.filterMap processRecord)

theorem claim_C5_witness :
    lW.Pairwise (fun a b => tsZ a ≤ tsZ b) ∧
    (∀ k : ℤ, lW.filter (fun p => tsZ p == k) =
      (rawW.filterMap processRecord).filter (fun p => tsZ p == k)) ∧
    (∀ p ∈ lW, p.original_data.timestamp = none → p.timestamp = Val.vInt 0) :=
  claim_C5 rawW lW
    (by
      intro r hr
      simp only [rawW, List.mem_cons, List.not_mem_nil, or_false] at hr
      rcases hr with rfl | rfl | rfl
      · exact Or.inr ⟨5, rfl⟩
      · exact Or.inl rfl
      · exact Or.inr ⟨5, rfl⟩)
    rfl

/-- Claim C6: a sanitized input consisting of exactly one point yields the
constant series — 11 copies of that point's probability (which, coming from
the normalizer, is already rounded to 3 decimals, so the output round-trip
leaves it unchanged). -/
theorem claim_C6 (spline : Spline) (c : Clock) (pt : ProcessedPoint)
    (hfp : pt.fault_probability = temperature_to_percentage pt.temperature) :
    (generate_time_series_data spline c [pt]).timeSeries.map (fun sp => sp.probability) =
      List.replicate 11 pt.fault_probability := by
  have hr : round3 pt.fault_probability = pt.fault_probability := by
    rw [hfp]
    exact temperature_to_percentage_round3 _
  simp [generate_time_series_data, tryGenerate, interpolatedResult, buildReport,
        generate_target_timestamps, targetHours, time_labels, hr,
        List.replicate_succ]

/-- Sanitized point with probability `0.4` (temperature 34.8 normalizes to
exactly `0.4`). -/
def pt40 : ProcessedPoint :=
  { timestamp := Val.vInt 0, time := Val.vStr "", temperature := 174 / 5,
    fault_probability := 2 / 5, original_data := rawEmpty }

theorem claim_C6_witness :
    (generate_time_series_data spline0 clock0 [pt40]).timeSeries.map
        (fun sp => sp.probability) =
      List.replicate 11 ((2 : ℚ) / 5) :=
  claim_C6 spline0 clock0 pt40
    (by norm_num [pt40, temperature_to_percentage, min_temp, max_temp, round3, rhe])

/-- Claim C7: the empty-input path returns the fallback report, whose series
probabilities are all `0.0` and whose `availableWaterJets` is the single
identifier `["WaterJet_01"]`; every successfully built (non-fallback) report
instead carries exactly the three identifiers — the one-versus-three
asymmetry. -/
theorem claim_C7 (spline : Spline) (c : Clock) (processed : List ProcessedPoint)
    (r : Report) (h : tryGenerate spline c processed = Except.ok r) :
    generate_time_series_data spline c [] = get_empty_time_series c ∧
    (get_empty_time_series c).timeSeries.map (fun sp => sp.probability) =
      List.replicate 11 0 ∧
    (get_empty_time_series c).availableWaterJets = ["WaterJet_01"] ∧
    r.availableWaterJets = ["WaterJet_01", "WaterJet_02", "WaterJet_03"] := by
  refine ⟨rfl, rfl, rfl, ?_⟩
  unfold tryGenerate at h
  cases hi : interpolatedResult spline c processed with
  | error e => rw [hi] at h; exact Except.noConfusion h
  | ok li =>
      rw [hi] at h
      cases h
      rfl

/-- The non-fallback report that `tryGenerate` produces on the single point
`pt40`. -/
def rep2 : Report := buildReport clock0 [pt40] (List.replicate 11 ((2 : ℚ) / 5))

theorem claim_C7_witness :
    generate_time_series_data spline0 clock0 [] = get_empty_time_series clock0 ∧
    (get_empty_time_series clock0).timeSeries.map (fun sp => sp.probability) =
      List.replicate 11 0 ∧
    (get_empty_time_series clock0).availableWaterJets = ["WaterJet_01"] ∧
    rep2.availableWaterJets = ["WaterJet_01", "WaterJet_02", "WaterJet_03"] :=
  claim_C7 spline0 clock0 [pt40] rep2 rfl

theorem t2p_eq_of_le {t : ℚ} (h : t ≤ 25) : temperature_to_percentage t = 0 := by
  unfold temperature_to_percentage min_temp
  rw [if_pos h]

theorem t2p_eq_of_ge {t : ℚ} (h : 99 / 2 ≤ t) : temperature_to_percentage t = 1 := by
  unfold temperature_to_percentage min_temp max_temp
  rw [if_neg (by linarith), if_pos h]

theorem t2p_eq_of_mid {t : ℚ} (h1 : 25 < t) (h2 : t < 99 / 2) :
    temperature_to_percentage t = round3 ((t - 25) / (99 / 2 - 25)) := by
  unfold temperature_to_percentage min_temp max_temp
  rw [if_neg (by linarith), if_neg (by simpa using not_le.mpr h2)]

/-- Claim C8: the normalizer is monotonically non-decreasing over all of ℚ,
across the saturated regions, the linear region, and the 3-decimal rounding
applied there. -/
theorem claim_C8 (t1 t2 : ℚ) (h : t1 ≤ t2) :
    temperature_to_percentage t1 ≤ temperature_to_percentage t2 := by
  rcases le_or_lt t1 25 with a1 | a1
  · rw [t2p_eq_of_le a1]
    exact temperature_to_percentage_nonneg t2
  · rcases le_or_lt (99 / 2) t2 with b2 | b2
    · rw [t2p_eq_of_ge b2]
      exact temperature_to_percentage_le_one t1
    · rw [t2p_eq_of_mid a1 (lt_of_le_of_lt h b2),
         t2p_eq_of_mid (lt_of_lt_of_le a1 h) b2]
      refine round3_mono ?_
      have hd : (99 : ℚ) / 2 - 25 = 49 / 2 := by norm_num
      rw [hd]
      linarith

theorem claim_C8_witness :
    temperature_to_percentage 30 ≤ temperature_to_percentage 40 :=
  claim_C8 30 40 (by norm_num)

/-- Claim C9: in the fallback report every one of the 11 series entries
carries the same integer timestamp — the clock's current time — while the
time labels still follow the fixed 11-label order; by contrast, the
non-empty path's target timestamps (midnight plus 02:00 through 22:00) are
strictly increasing, hence 11 distinct epochs. -/
theorem claim_C9 (c : Clock) :
    (get_empty_time_series c).timeSeries.map (fun sp => sp.timestamp) =
      List.replicate 11 c.now ∧
    (get_empty_time_series c).timeSeries.map (fun sp => sp.time) = time_labels ∧
    List.Chain' (fun a b => a < b) (generate_target_timestamps c.midnight) := by
  refine ⟨rfl, rfl, ?_⟩
  simp only [generate_target_timestamps, targetHours, List.map_cons, List.map_nil,
    List.chain'_cons, List.chain'_singleton, and_true]
  omega

/-- Claim C10: on the non-empty success path, `latestData.timestamp` in the
report is the string `time` field of the last sanitized point — which is the
originating raw record's `time` value, or the empty string when that record
had no `time` key — not the integer epoch `timestamp` field. -/
theorem claim_C10 (spline : Spline) (c : Clock) (raw : List RawRecord)
    (l : List ProcessedPoint) (r : Report) (last : ProcessedPoint)
    (h1 : process_raw_data raw = Except.ok l)
    (h2 : l.getLast? = some last)
    (h3 : tryGenerate spline c l = Except.ok r) :
    r.latestData.timestamp = last.time ∧
    last.time = last.original_data.time.getD (Val.vStr "") := by
  constructor
  · unfold tryGenerate at h3
    cases hi : interpolatedResult spline c l with
    | error e => rw [hi] at h3; exact Except.noConfusion h3
    | ok li =>
        rw [hi] at h3
        cases h3
        simp [buildReport, h2]
  · have hmem := getLast?_mem_self h2
    exact (process_raw_data_point_spec h1 hmem).2.1

/-- The sanitized point the pipeline produces from `goodRec`. -/
def ptGood : ProcessedPoint :=
  { timestamp := Val.vInt 0, time := Val.vStr "t0", temperature := 53 / 2,
    fault_probability := temperature_to_percentage (53 / 2), original_data := goodRec }

/-- The non-fallback report `tryGenerate` produces on `[ptGood]`. -/
def rep3 : Report :=
  buildReport clock0 [ptGood] (List.replicate 11 ptGood.fault_probability)

theorem claim_C10_witness :
    rep3.latestData.timestamp = ptGood.time ∧
    ptGood.time = ptGood.original_data.time.getD (Val.vStr "") :=
  claim_C10 spline0 clock0 goodRaw [ptGood] rep3 ptGood rfl rfl rfl
